import Mathlib

/-!
Verification development for `src/benchmark.py` of the
psycopg-vs-sqlalchemy benchmarking harness.

The Python source is shallowly embedded below.  Wall-clock durations
(Python `float`) are modelled as exact rationals `ℚ`; Python exceptions
(`ZeroDivisionError` from float division by zero, `KeyError` from a dict
lookup of an absent key, and a fatal store error escaping
`benchmark_worker`) are modelled with `Except`.
-/

deriving instance DecidableEq for Except

namespace Benchmark

/-- A Python exception that can escape the reporting / running code. -/
inductive PyError
  | zeroDivision
  | keyLookup
  | storeUnavailable
deriving DecidableEq, Repr

/-- One entry of the `results` list consumed by `print_results`
(`src/benchmark.py:282`): a dict with keys `name`, `duration` and
(possibly) `slowness`.  `slowness : Option String` models presence of the
`"slowness"` key; `run_benchmark` initializes it to `some "0"`. -/
structure Measurement where
  name : String
  duration : ℚ
  slowness : Option String
deriving DecidableEq, Repr

/-- Round-half-to-even of a rational to an integer: the semantics of
Python `round` on an exactly-representable value. -/
def roundHalfEven (q : ℚ) : ℤ :=
  let f : ℤ := ⌊q⌋
  let r : ℚ := q - f
  if r < 1/2 then f
  else if 1/2 < r then f + 1
  else if f % 2 = 0 then f else f + 1

/-- Python `str(round(q, 2))` on a numeric value `q` that the rounding
takes to `r/100`: an integer part, a dot, and the fractional hundredths
with trailing zeros stripped down to at least one digit
(`str(2.0) = "2.0"`, `str(2.5) = "2.5"`, `str(1.42) = "1.42"`). -/
def formatRound2 (q : ℚ) : String :=
  let r : ℤ := roundHalfEven (q * 100)
  let sgn : String := if r < 0 then "-" else ""
  let a : ℕ := r.natAbs
  let ip : ℕ := a / 100
  let fr : ℕ := a % 100
  if fr = 0 then sgn ++ toString ip ++ ".0"
  else if fr % 10 = 0 then sgn ++ toString ip ++ "." ++ toString (fr / 10)
  else if fr < 10 then sgn ++ toString ip ++ ".0" ++ toString fr
  else sgn ++ toString ip ++ "." ++ toString fr

/-- The slowness string written at `src/benchmark.py:298`:
`str(round(cur / prev, 2)) + "x"`. -/
def slownessStr (cur prev : ℚ) : String :=
  formatRound2 (cur / prev) ++ "x"

/-- The slowness pass of `print_results` (`src/benchmark.py:294-298`):
every odd-indexed measurement gets
`slowness = str(round(duration / prev_duration, 2)) + "x"` where
`prev_duration` is the duration of the preceding even-indexed
measurement; even-indexed measurements are skipped (`continue`).
Python raises `ZeroDivisionError` when `prev_duration` is `0.0`; the
loop visits indices in order, so the first zero divisor aborts the pass. -/
def computeSlowness : List Measurement → Except PyError (List Measurement)
  | [] => .ok []
  | [m] => .ok [m]
  | a :: b :: rest =>
    if a.duration = 0 then .error .zeroDivision
    else
      match computeSlowness rest with
      | .error e => .error e
      | .ok tail =>
        .ok (a :: { b with slowness := some (slownessStr b.duration a.duration) } :: tail)

/-- One row of the table data built at `src/benchmark.py:300`:
`[x["name"], x["duration"], x["slowness"]]`. -/
structure Row where
  name : String
  duration : ℚ
  slowness : String
deriving DecidableEq, Repr

/-- The row-building comprehension at `src/benchmark.py:300`.  The lookup
`x["slowness"]` raises `KeyError` when the key is absent (modelled by
`slowness = none`). -/
def makeRows : List Measurement → Except PyError (List Row)
  | [] => .ok []
  | m :: rest =>
    match m.slowness with
    | none => .error .keyLookup
    | some s =>
      match makeRows rest with
      | .error e => .error e
      | .ok tail => .ok (⟨m.name, m.duration, s⟩ :: tail)

/-- `print_results` (`src/benchmark.py:282-307`): run the slowness pass
over the results, then build the table rows handed to the tabulate
renderer.  The formatted printing itself is an external effect and not
modelled beyond the row data. -/
def print_results (results : List Measurement) : Except PyError (List Row) :=
  match computeSlowness results with
  | .error e => .error e
  | .ok updated => makeRows updated

/-! ### The dispatcher: `ThreadPoolExecutor` batches

Every benchmark function that emulates concurrent clients submits its
per-invocation closure to a `ThreadPoolExecutor` inside a `with` block
(e.g. `src/benchmark.py:116-117`), collecting the futures in a local
list that is never read again.  The `with` block joins the pool, so the
function returns only after every submitted invocation has finished. -/

/-- The error a single database operation can raise inside a worker
thread (row not found, constraint violation, ...). -/
inductive OpError
  | operationFailed
deriving DecidableEq, Repr

/-- The outcomes held by the `futures` list after the `with` block has
joined the pool: one outcome per submitted operation, in submission
order.  An exception raised by `func` is captured inside its future
(`.error`); it does not propagate into the other submissions. -/
def dispatchOutcomes (ops : List (Unit → Except OpError Unit)) : List (Except OpError Unit) :=
  ops.map (fun f => f ())

/-- The enclosing benchmark function (e.g. `run_psycopg_select`,
`src/benchmark.py:89-117`) binds the futures to a local variable and
then falls off the end, returning `None`: the captured outcomes are
discarded and nothing of them reaches the caller. -/
def runBatchAndDiscard (ops : List (Unit → Except OpError Unit)) : Unit :=
  let _futures := dispatchOutcomes ops
  ()

/-- An always-succeeding work-unit invocation. -/
def okOp : Unit → Except OpError Unit := fun _ => .ok ()

/-- A work-unit invocation that raises (modelling a failed database
operation inside a worker thread). -/
def failOp : Unit → Except OpError Unit := fun _ => .error .operationFailed

/-! ### Bounded worker pool

`ThreadPoolExecutor(max_workers=C)` runs the submitted closures with at
most `C` worker threads alive at any instant; the `with` block returns
only once the queue is drained and all workers are idle.  The pool's
scheduling is modelled as a transition system counting pending, running
and completed invocations. -/

/-- Scheduler state of one `ThreadPoolExecutor` batch: number of
submitted-but-unstarted invocations, currently executing invocations,
and completed invocations. -/
structure PoolState where
  pending : ℕ
  running : ℕ
  done : ℕ
deriving DecidableEq, Repr

/-- One scheduling step of a pool with worker bound `C`: a pending
invocation may start whenever fewer than `C` are executing, and an
executing invocation may complete.  (The source uses `C = 1000` and
`N = 100000` submissions, e.g. `src/benchmark.py:116-117`.) -/
inductive PoolStep (C : ℕ) : PoolState → PoolState → Prop
  | start (s : PoolState) (hp : 0 < s.pending) (hr : s.running < C) :
      PoolStep C s ⟨s.pending - 1, s.running + 1, s.done⟩
  | complete (s : PoolState) (hr : 0 < s.running) :
      PoolStep C s ⟨s.pending, s.running - 1, s.done + 1⟩

/-- States reachable by a pool with worker bound `C` from the initial
state holding `N` submitted invocations. -/
inductive PoolReach (C N : ℕ) : PoolState → Prop
  | init : PoolReach C N ⟨N, 0, 0⟩
  | step {s t : PoolState} : PoolReach C N s → PoolStep C s t → PoolReach C N t

/-! ### The catalog and the runner -/

/-- The eight benchmark functions of the source, in source order. -/
inductive BenchFn
  | run_psycopg_select
  | run_sqlalchemy_select
  | run_psycopg_update
  | run_sqlalchemy_update
  | psycopg_executemany
  | run_sqlalchemy_add_all
  | psycopg_concurrent_add
  | run_sqlalchemy_concurrent_add
deriving DecidableEq, Repr, BEq

/-- Which database client a benchmark function exercises, read off its
body (`SESSIONMAKER`/ORM session vs. `PG_POOLER` connection). -/
inductive Client
  | psycopg
  | sqlalchemy
deriving DecidableEq, Repr

/-- The logical operation a benchmark function performs, read off its
body (select / update / single bulk insert / concurrent inserts). -/
inductive OpKind
  | concurrentSelect
  | concurrentUpdate
  | batchAdd
  | concurrentAdd
deriving DecidableEq, Repr

/-- Client used by each benchmark function. -/
def clientOf : BenchFn → Client
  | .run_psycopg_select => .psycopg
  | .run_sqlalchemy_select => .sqlalchemy
  | .run_psycopg_update => .psycopg
  | .run_sqlalchemy_update => .sqlalchemy
  | .psycopg_executemany => .psycopg
  | .run_sqlalchemy_add_all => .sqlalchemy
  | .psycopg_concurrent_add => .psycopg
  | .run_sqlalchemy_concurrent_add => .sqlalchemy

/-- Logical operation performed by each benchmark function. -/
def opKindOf : BenchFn → OpKind
  | .run_psycopg_select => .concurrentSelect
  | .run_sqlalchemy_select => .concurrentSelect
  | .run_psycopg_update => .concurrentUpdate
  | .run_sqlalchemy_update => .concurrentUpdate
  | .psycopg_executemany => .batchAdd
  | .run_sqlalchemy_add_all => .batchAdd
  | .psycopg_concurrent_add => .concurrentAdd
  | .run_sqlalchemy_concurrent_add => .concurrentAdd

/-! ### Control-flow events of one catalog entry

`benchmark_worker` (`src/benchmark.py:256-279`) drops and recreates the
schema, reads `perf_counter()`, calls the benchmark function, and reads
`perf_counter()` again.  The select/update benchmark functions execute
the `generate_series` bulk-populate statement inside their own bodies,
i.e. after `benchmark_worker` has taken the start reading. -/

/-- Observable control-flow events of one catalog entry's execution. -/
inductive Event
  | dropTables
  | createTables
  | timerStartRead
  | seedRows
  | runWorkload
  | timerStopRead
deriving DecidableEq, Repr, BEq

/-- Whether a benchmark function's body begins with the server-side
`generate_series` bulk-populate statement (true for the four
select/update functions, e.g. `src/benchmark.py:98-105`). -/
def requiresSeed : BenchFn → Bool
  | .run_psycopg_select => true
  | .run_sqlalchemy_select => true
  | .run_psycopg_update => true
  | .run_sqlalchemy_update => true
  | .psycopg_executemany => false
  | .run_sqlalchemy_add_all => false
  | .psycopg_concurrent_add => false
  | .run_sqlalchemy_concurrent_add => false

/-- Events performed by a benchmark function's own body, in source
order: the seed insert (when present) followed by the dispatched or
single-shot workload. -/
def eventsOf (f : BenchFn) : List Event :=
  if requiresSeed f then [.seedRows, .runWorkload] else [.runWorkload]

/-- Event trace of `benchmark_worker f` (`src/benchmark.py:273-279`):
`drop_all`, `create_all`, the `perf_counter()` start reading, the body
of `f`, then the `perf_counter()` stop reading. -/
def benchmark_worker_events (f : BenchFn) : List Event :=
  [.dropTables, .createTables, .timerStartRead] ++ eventsOf f ++ [.timerStopRead]

/-- One entry of the `functions` catalog of `run_benchmark`
(`src/benchmark.py:319-368`): the dict's `name` and `func` keys.  The
`duration` and `slowness` keys are initialized to `0` and `"0"`. -/
structure CatalogEntry where
  name : String
  func : BenchFn
deriving DecidableEq, Repr

/-- The static catalog of `run_benchmark`, in source order. -/
def functions : List CatalogEntry :=
  [ ⟨"Psycopg Concurrent Select", .run_psycopg_select⟩,
    ⟨"SQLAlchemy Concurrent Select", .run_sqlalchemy_select⟩,
    ⟨"Psycopg Concurrent update", .run_psycopg_update⟩,
    ⟨"SQLAlchemy Concurrent update", .run_sqlalchemy_update⟩,
    ⟨"Psycopg Batch Add", .psycopg_executemany⟩,
    ⟨"SQLAlchemy Batch Add", .run_sqlalchemy_add_all⟩,
    ⟨"Psycopg Concurrent Add", .psycopg_concurrent_add⟩,
    ⟨"SQLAlchemy Concurrent Add", .run_sqlalchemy_concurrent_add⟩ ]

/-- The measurement dict produced for one catalog entry after
`func["duration"] = benchmark_worker(func["func"])`
(`src/benchmark.py:370-371`), given the duration `d` that the timing of
each function yields in this run.  The `slowness` key still holds its
initialized value `"0"`. -/
def run_benchmark_measurements (d : BenchFn → ℚ) : List Measurement :=
  functions.map (fun e => ⟨e.name, d e.func, some "0"⟩)

/-- The measuring loop of `run_benchmark` (`src/benchmark.py:370-371`)
with a fallible schema reset: `benchmark_worker` first drops and
recreates the schema, and a store failure there (`resetOk e.func =
false`) raises out of the loop uncaught.  `d` gives the duration each
successfully benchmarked function takes in this run. -/
def measureAll (resetOk : BenchFn → Bool) (d : BenchFn → ℚ) :
    List CatalogEntry → Except PyError (List Measurement)
  | [] => .ok []
  | e :: rest =>
    if resetOk e.func then
      match measureAll resetOk d rest with
      | .error err => .error err
      | .ok tail => .ok (⟨e.name, d e.func, some "0"⟩ :: tail)
    else .error .storeUnavailable

/-- `run_benchmark` (`src/benchmark.py:310-373`): benchmark every
catalog entry in order, then hand the list to `print_results`.  There is
no exception handler anywhere in the function, so a store failure during
a reset propagates and `print_results` is never reached. -/
def run_benchmark (resetOk : BenchFn → Bool) (d : BenchFn → ℚ) : Except PyError (List Row) :=
  match measureAll resetOk d functions with
  | .error e => .error e
  | .ok ms => print_results ms

/-! ### Helper lemmas -/

/-- Induction on a list two elements at a time, matching the paired
traversal of `computeSlowness`. -/
theorem twoStepInduction {α : Type} {motive : List α → Prop}
    (h0 : motive [])
    (h1 : ∀ m, motive [m])
    (h2 : ∀ a b rest, motive rest → motive (a :: b :: rest)) :
    ∀ l, motive l
  | [] => h0
  | [m] => h1 m
  | a :: b :: rest => h2 a b rest (twoStepInduction h0 h1 h2 rest)

/-- Rounding an integer-valued rational changes nothing. -/
theorem roundHalfEven_intCast (n : ℤ) : roundHalfEven (n : ℚ) = n := by
  simp [roundHalfEven]

/-- Evaluation: `str(round(4.0 / 2.0, 2)) + "x" = "2.0x"`. -/
theorem slownessStr_4_2 : slownessStr 4 2 = "2.0x" := by
  have h : (4:ℚ)/2 * 100 = ((200:ℤ):ℚ) := by norm_num
  simp only [slownessStr, formatRound2, h, roundHalfEven_intCast]
  decide

/-- Evaluation: `str(round(3.0 / 1.0, 2)) + "x" = "3.0x"`. -/
theorem slownessStr_3_1 : slownessStr 3 1 = "3.0x" := by
  have h : (3:ℚ)/1 * 100 = ((300:ℤ):ℚ) := by norm_num
  simp only [slownessStr, formatRound2, h, roundHalfEven_intCast]
  decide

/-- Evaluation: `str(round(2.5 / 1.0, 2)) + "x" = "2.5x"`. -/
theorem slownessStr_52_1 : slownessStr (5/2) 1 = "2.5x" := by
  have h : (5:ℚ)/2/1 * 100 = ((250:ℤ):ℚ) := by norm_num
  simp only [slownessStr, formatRound2, h, roundHalfEven_intCast]
  decide

/-- Evaluation: `str(round(2.0 / 1.0, 2)) + "x" = "2.0x"`. -/
theorem slownessStr_2_1 : slownessStr 2 1 = "2.0x" := by
  have h : (2:ℚ)/1 * 100 = ((200:ℤ):ℚ) := by norm_num
  simp only [slownessStr, formatRound2, h, roundHalfEven_intCast]
  decide

/-- Evaluation: `str(round(1.0 / 1.0, 2)) + "x" = "1.0x"`. -/
theorem slownessStr_1_1 : slownessStr 1 1 = "1.0x" := by
  have h : (1:ℚ)/1 * 100 = ((100:ℤ):ℚ) := by norm_num
  simp only [slownessStr, formatRound2, h, roundHalfEven_intCast]
  decide

/-- Inversion of a successful slowness pass on a list of length two or
more: the leading duration is nonzero, the tail pass succeeded, and the
output is the input with the second element's slowness filled in. -/
theorem computeSlowness_cons_cons_ok {a b : Measurement} {rest l' : List Measurement}
    (h : computeSlowness (a :: b :: rest) = .ok l') :
    a.duration ≠ 0 ∧ ∃ tail, computeSlowness rest = .ok tail ∧
      l' = a :: { b with slowness := some (slownessStr b.duration a.duration) } :: tail := by
  by_cases hd : a.duration = 0
  · simp [computeSlowness, hd] at h
  · refine ⟨hd, ?_⟩
    cases ht : computeSlowness rest with
    | error e => simp [computeSlowness, hd, ht] at h
    | ok tail =>
      simp only [computeSlowness, if_neg hd, ht] at h
      exact ⟨tail, rfl, (Except.ok.injEq _ _ ▸ h).symm⟩

/-- A successful slowness pass preserves the length of the results. -/
theorem computeSlowness_length :
    ∀ {l l' : List Measurement}, computeSlowness l = .ok l' → l'.length = l.length := by
  intro l
  induction l using twoStepInduction with
  | h0 =>
    intro l' h
    simp only [computeSlowness, Except.ok.injEq] at h
    simp [← h]
  | h1 m =>
    intro l' h
    simp only [computeSlowness, Except.ok.injEq] at h
    simp [← h]
  | h2 a b rest ih =>
    intro l' h
    obtain ⟨-, tail, ht, rfl⟩ := computeSlowness_cons_cons_ok h
    simp [ih ht]

/-- A successful slowness pass leaves every even-indexed measurement
exactly as it was. -/
theorem computeSlowness_getElem_even :
    ∀ {l l' : List Measurement}, computeSlowness l = .ok l' →
      ∀ k : ℕ, l'[2*k]? = l[2*k]? := by
  intro l
  induction l using twoStepInduction with
  | h0 =>
    intro l' h k
    simp only [computeSlowness, Except.ok.injEq] at h
    simp [← h]
  | h1 m =>
    intro l' h k
    simp only [computeSlowness, Except.ok.injEq] at h
    simp [← h]
  | h2 a b rest ih =>
    intro l' h k
    obtain ⟨-, tail, ht, rfl⟩ := computeSlowness_cons_cons_ok h
    cases k with
    | zero => simp
    | succ k =>
      have h2 : 2*(k+1) = 2*k+1+1 := by ring
      rw [h2, List.getElem?_cons_succ, List.getElem?_cons_succ,
        List.getElem?_cons_succ, List.getElem?_cons_succ]
      exact ih ht k

/-- A successful slowness pass rewrites every odd-indexed measurement to
its input value with `slowness` set from the two surrounding durations. -/
theorem computeSlowness_getElem_odd :
    ∀ {l l' : List Measurement}, computeSlowness l = .ok l' →
      ∀ {k : ℕ} {a b : Measurement}, l[2*k]? = some a → l[2*k+1]? = some b →
        l'[2*k+1]? = some { b with slowness := some (slownessStr b.duration a.duration) } := by
  intro l
  induction l using twoStepInduction with
  | h0 =>
    intro l' h k a b ha hb
    simp at ha
  | h1 m =>
    intro l' h k a b ha hb
    cases k with
    | zero => simp at hb
    | succ k =>
      have h2 : 2*(k+1) = 2*k+1+1 := by ring
      rw [h2, List.getElem?_cons_succ] at ha
      simp at ha
  | h2 x y rest ih =>
    intro l' h k a b ha hb
    obtain ⟨-, tail, ht, rfl⟩ := computeSlowness_cons_cons_ok h
    cases k with
    | zero =>
      simp only [Nat.mul_zero, List.getElem?_cons_zero, List.getElem?_cons_succ,
        Option.some.injEq] at ha hb
      subst ha
      subst hb
      simp
    | succ k =>
      have h2 : 2*(k+1) = 2*k+1+1 := by ring
      rw [h2, List.getElem?_cons_succ, List.getElem?_cons_succ] at ha
      rw [h2] at hb
      rw [List.getElem?_cons_succ, List.getElem?_cons_succ] at hb
      rw [h2, List.getElem?_cons_succ, List.getElem?_cons_succ]
      exact ih ht ha hb

/-- Applying the slowness pass to its own successful output succeeds and
changes nothing: the pass reads only durations, which it never writes. -/
theorem computeSlowness_idem :
    ∀ {l l' : List Measurement}, computeSlowness l = .ok l' →
      computeSlowness l' = .ok l' := by
  intro l
  induction l using twoStepInduction with
  | h0 =>
    intro l' h
    simp only [computeSlowness, Except.ok.injEq] at h
    simp [← h, computeSlowness]
  | h1 m =>
    intro l' h
    simp only [computeSlowness, Except.ok.injEq] at h
    simp [← h, computeSlowness]
  | h2 a b rest ih =>
    intro l' h
    obtain ⟨hd, tail, ht, rfl⟩ := computeSlowness_cons_cons_ok h
    simp [computeSlowness, if_neg hd, ih ht]

/-- The slowness pass succeeds whenever every even-indexed measurement
that has an odd-indexed successor carries a nonzero duration. -/
theorem computeSlowness_total :
    ∀ l : List Measurement,
      (∀ k : ℕ, 2*k+1 < l.length → l[2*k]?.map Measurement.duration ≠ some 0) →
      ∃ l', computeSlowness l = .ok l' := by
  intro l
  induction l using twoStepInduction with
  | h0 =>
    intro _
    exact ⟨[], rfl⟩
  | h1 m =>
    intro _
    exact ⟨[m], rfl⟩
  | h2 a b rest ih =>
    intro hnz
    have ha : a.duration ≠ 0 := by
      have h0 := hnz 0 (by simp)
      simp at h0
      exact h0
    have hrest : ∀ k : ℕ, 2*k+1 < rest.length →
        rest[2*k]?.map Measurement.duration ≠ some 0 := by
      intro k hk
      have hlen : 2*(k+1)+1 < (a :: b :: rest).length := by
        simp only [List.length_cons]
        omega
      have h2 : 2*(k+1) = 2*k+1+1 := by ring
      have := hnz (k+1) hlen
      rwa [h2, List.getElem?_cons_succ, List.getElem?_cons_succ] at this
    obtain ⟨tail, ht⟩ := ih hrest
    exact ⟨a :: { b with slowness := some (slownessStr b.duration a.duration) } :: tail,
      by simp [computeSlowness, if_neg ha, ht]⟩

/-- Row building succeeds exactly when every measurement carries the
`slowness` key. -/
theorem makeRows_total :
    ∀ l : List Measurement, (∀ m ∈ l, m.slowness ≠ none) →
      ∃ rows, makeRows l = .ok rows := by
  intro l
  induction l with
  | nil => exact fun _ => ⟨[], rfl⟩
  | cons m rest ih =>
    intro hall
    obtain ⟨s, hs⟩ := Option.ne_none_iff_exists'.mp (hall m (by simp))
    obtain ⟨tail, ht⟩ := ih (fun x hx => hall x (by simp [hx]))
    exact ⟨⟨m.name, m.duration, s⟩ :: tail, by simp [makeRows, hs, ht]⟩

/-- A successful slowness pass never removes a present `slowness` key:
every output measurement still carries one when every input did. -/
theorem computeSlowness_keeps_keys :
    ∀ {l l' : List Measurement}, computeSlowness l = .ok l' →
      (∀ m ∈ l, m.slowness ≠ none) → ∀ m ∈ l', m.slowness ≠ none := by
  intro l
  induction l using twoStepInduction with
  | h0 =>
    intro l' h hall
    simp only [computeSlowness, Except.ok.injEq] at h
    simp [← h]
  | h1 m =>
    intro l' h hall
    simp only [computeSlowness, Except.ok.injEq] at h
    simpa [← h] using hall
  | h2 a b rest ih =>
    intro l' h hall
    obtain ⟨-, tail, ht, rfl⟩ := computeSlowness_cons_cons_ok h
    intro m hm
    simp only [List.mem_cons] at hm
    rcases hm with he | he | hm
    · rw [he]
      exact hall a (by simp)
    · rw [he]
      simp
    · exact ih ht (fun x hx => hall x (by simp [hx])) m hm

/-- If some catalog entry's schema reset fails, the measuring loop of
`run_benchmark` raises the store error, whatever the durations are. -/
theorem measureAll_error :
    ∀ (entries : List CatalogEntry) (resetOk : BenchFn → Bool) (d : BenchFn → ℚ),
      (∃ e ∈ entries, resetOk e.func = false) →
      measureAll resetOk d entries = .error .storeUnavailable := by
  intro entries resetOk d
  induction entries with
  | nil => rintro ⟨e, he, -⟩; simp at he
  | cons e rest ih =>
    rintro ⟨x, hx, hfail⟩
    simp only [List.mem_cons] at hx
    by_cases hok : resetOk e.func
    · rcases hx with rfl | hx
      · rw [hok] at hfail; simp at hfail
      · simp [measureAll, hok, ih ⟨x, hx, hfail⟩]
    · simp [measureAll, hok]

/-- Safety invariant of the bounded worker pool: at most `C` running,
and the invocation count is conserved. -/
theorem poolReach_invariant {C N : ℕ} :
    ∀ {s : PoolState}, PoolReach C N s →
      s.running ≤ C ∧ s.pending + s.running + s.done = N := by
  intro s h
  induction h with
  | init => simp
  | @step s t hreach hstep ih =>
    obtain ⟨ih1, ih2⟩ := ih
    cases hstep with
    | start hp hr =>
      refine ⟨?_, ?_⟩
      · show s.running + 1 ≤ C
        omega
      · show s.pending - 1 + (s.running + 1) + s.done = N
        omega
    | complete hr =>
      refine ⟨?_, ?_⟩
      · show s.running - 1 ≤ C
        omega
      · show s.pending + (s.running - 1) + (s.done + 1) = N
        omega

/-- With at least one worker the pool can drain every submitted
invocation: the fully-completed state is reachable. -/
theorem poolReach_drain {C N : ℕ} (hC : 1 ≤ C) :
    ∀ k, k ≤ N → PoolReach C N ⟨N - k, 0, k⟩ := by
  intro k
  induction k with
  | zero => intro _; simpa using PoolReach.init
  | succ k ih =>
    intro hk
    have h1 : PoolReach C N ⟨N - k, 0, k⟩ := ih (by omega)
    have h2 : PoolReach C N ⟨N - k - 1, 1, k⟩ := by
      have hstart := PoolReach.step h1
        (PoolStep.start ⟨N - k, 0, k⟩ (by show 0 < N - k; omega) (by show 0 < C; omega))
      simpa using hstart
    have h3 := PoolReach.step h2 (PoolStep.complete ⟨N - k - 1, 1, k⟩ (by simp))
    have he : (⟨N - k - 1, 1 - 1, k + 1⟩ : PoolState) = ⟨N - (k+1), 0, k+1⟩ := by
      simp
      omega
    rwa [he] at h3

/-! ### Claims -/

/-- Claim C1, counterexample: in `benchmark_worker run_psycopg_select`
the `generate_series` seeding does NOT complete before the Timer's start
reading — the start reading sits at trace position 2 and the seeding at
position 3, inside the timed interval. -/
theorem C1_counterexample :
    (benchmark_worker_events .run_psycopg_select).indexOf Event.timerStartRead = 2
    ∧ (benchmark_worker_events .run_psycopg_select).indexOf Event.seedRows = 3
    ∧ ¬ ((benchmark_worker_events .run_psycopg_select).indexOf Event.seedRows
        < (benchmark_worker_events .run_psycopg_select).indexOf Event.timerStartRead) := by
  decide

/-- Claim C1, amended: for every catalog entry, the schema drop and
recreate complete strictly before the Timer's start reading, and the
measured interval brackets the benchmark function's whole body — so for
entries that require pre-existing data the `generate_series` seeding
happens after the start reading and before the stop reading, and the
measured duration includes the seeding cost (it excludes only the
schema-reset cost). -/
theorem C1_theorem :
    ∀ f : BenchFn,
      (benchmark_worker_events f).indexOf Event.dropTables
          < (benchmark_worker_events f).indexOf Event.timerStartRead
      ∧ (benchmark_worker_events f).indexOf Event.createTables
          < (benchmark_worker_events f).indexOf Event.timerStartRead
      ∧ (benchmark_worker_events f).indexOf Event.timerStartRead
          < (benchmark_worker_events f).indexOf Event.runWorkload
      ∧ (benchmark_worker_events f).indexOf Event.runWorkload
          < (benchmark_worker_events f).indexOf Event.timerStopRead
      ∧ (requiresSeed f = true →
          (benchmark_worker_events f).indexOf Event.timerStartRead
              < (benchmark_worker_events f).indexOf Event.seedRows
          ∧ (benchmark_worker_events f).indexOf Event.seedRows
              < (benchmark_worker_events f).indexOf Event.timerStopRead) := by
  intro f
  cases f <;> decide

/-- Witness for C1: the seed-requiring entry `run_psycopg_select`
satisfies the hypothesis, and its seeding lands inside the timed
interval. -/
theorem C1_witness :
    requiresSeed .run_psycopg_select = true
    ∧ ((benchmark_worker_events BenchFn.run_psycopg_select).indexOf Event.timerStartRead
          < (benchmark_worker_events BenchFn.run_psycopg_select).indexOf Event.seedRows
      ∧ (benchmark_worker_events BenchFn.run_psycopg_select).indexOf Event.seedRows
          < (benchmark_worker_events BenchFn.run_psycopg_select).indexOf Event.timerStopRead) :=
  ⟨by decide, (C1_theorem BenchFn.run_psycopg_select).2.2.2.2 (by decide)⟩

/-- Claim C2: whenever the slowness pass completes, every odd-indexed
measurement's slowness is the string `str(round(duration[i] /
duration[i-1], 2)) + "x"`; on durations `[2, 4, 1, 3]` it yields
`"2.0x"` at index 1 and `"3.0x"` at index 3. -/
theorem C2_theorem :
    (∀ (l l' : List Measurement) (k : ℕ) (a b : Measurement),
        computeSlowness l = .ok l' →
        l[2*k]? = some a → l[2*k+1]? = some b →
        l'[2*k+1]? = some { b with slowness := some (slownessStr b.duration a.duration) })
    ∧ computeSlowness
        [⟨"a", 2, some "0"⟩, ⟨"b", 4, some "0"⟩, ⟨"c", 1, some "0"⟩, ⟨"d", 3, some "0"⟩]
      = .ok [⟨"a", 2, some "0"⟩, ⟨"b", 4, some "2.0x"⟩,
             ⟨"c", 1, some "0"⟩, ⟨"d", 3, some "3.0x"⟩] := by
  constructor
  · intro l l' k a b h ha hb
    exact computeSlowness_getElem_odd h ha hb
  · simp only [computeSlowness, slownessStr_4_2, slownessStr_3_1]
    norm_num

/-- Witness for C2: the general formula applied at index pair (2, 3) of
the concrete four-entry list. -/
theorem C2_witness :
    ([⟨"a", 2, some "0"⟩, ⟨"b", 4, some "2.0x"⟩,
      ⟨"c", 1, some "0"⟩, ⟨"d", 3, some "3.0x"⟩] : List Measurement)[2*1+1]?
      = some { name := "d", duration := 3, slowness := some (slownessStr 3 1) } :=
  C2_theorem.1
    [⟨"a", 2, some "0"⟩, ⟨"b", 4, some "0"⟩, ⟨"c", 1, some "0"⟩, ⟨"d", 3, some "0"⟩]
    [⟨"a", 2, some "0"⟩, ⟨"b", 4, some "2.0x"⟩, ⟨"c", 1, some "0"⟩, ⟨"d", 3, some "3.0x"⟩]
    1 ⟨"c", 1, some "0"⟩ ⟨"d", 3, some "0"⟩
    C2_theorem.2 (by decide) (by decide)

/-- Claim C3, counterexample: in the two-entry scenario with durations
1.00 and 2.50, the even-indexed measurement keeps the slowness string
`"0"` that `run_benchmark` initialized — it is not unset, and the
rendered row shows `"0"`, not `-`. -/
theorem C3_counterexample :
    print_results [⟨"A", 1, some "0"⟩, ⟨"B", 5/2, some "0"⟩]
      = .ok [⟨"A", 1, "0"⟩, ⟨"B", 5/2, "2.5x"⟩]
    ∧ ("0" : String) ≠ "-"
    ∧ (some "0" : Option String) ≠ none := by
  refine ⟨?_, by decide, by decide⟩
  have hcs : computeSlowness [⟨"A", 1, some "0"⟩, ⟨"B", 5/2, some "0"⟩]
      = .ok [⟨"A", 1, some "0"⟩, ⟨"B", 5/2, some "2.5x"⟩] := by
    simp only [computeSlowness, slownessStr_52_1]
    norm_num
  simp only [print_results, hcs]
  rfl

/-- Claim C3, amended: the slowness pass leaves every even-indexed
measurement exactly as it was — in `run_benchmark`'s results that means
the initialized slowness string `"0"`, not an unset field — and in the
two-entry scenario (durations 1.00 and 2.50) the rendered rows are
`A, 1, "0"` and `B, 5/2, "2.5x"`. -/
theorem C3_theorem :
    (∀ (l l' : List Measurement) (k : ℕ),
        computeSlowness l = .ok l' → l'[2*k]? = l[2*k]?)
    ∧ print_results [⟨"A", 1, some "0"⟩, ⟨"B", 5/2, some "0"⟩]
      = .ok [⟨"A", 1, "0"⟩, ⟨"B", 5/2, "2.5x"⟩] := by
  constructor
  · intro l l' k h
    exact computeSlowness_getElem_even h k
  · have hcs : computeSlowness [⟨"A", 1, some "0"⟩, ⟨"B", 5/2, some "0"⟩]
        = .ok [⟨"A", 1, some "0"⟩, ⟨"B", 5/2, some "2.5x"⟩] := by
      simp only [computeSlowness, slownessStr_52_1]
      norm_num
    simp only [print_results, hcs]
    rfl

/-- Witness for C3: the even-index preservation applied at index 0 of
the two-entry scenario. -/
theorem C3_witness :
    ([⟨"A", 1, some "0"⟩, ⟨"B", 5/2, some "2.5x"⟩] : List Measurement)[2*0]?
      = ([⟨"A", 1, some "0"⟩, ⟨"B", 5/2, some "0"⟩] : List Measurement)[2*0]? :=
  C3_theorem.1 [⟨"A", 1, some "0"⟩, ⟨"B", 5/2, some "0"⟩]
    [⟨"A", 1, some "0"⟩, ⟨"B", 5/2, some "2.5x"⟩] 0
    (by simp only [computeSlowness, slownessStr_52_1]; norm_num)

/-- Claim C4, counterexample: on an odd-length results list whose final
entry has no slowness key, the slowness pass does leave it unset, but
rendering then raises a `KeyError` at the `x["slowness"]` lookup instead
of degrading to omit the field — the reporter crashes. -/
theorem C4_counterexample :
    print_results [⟨"A", 1, some "0"⟩, ⟨"B", 2, some "0"⟩, ⟨"C", 3, none⟩]
      = .error .keyLookup := by
  have hcs : computeSlowness [⟨"A", 1, some "0"⟩, ⟨"B", 2, some "0"⟩, ⟨"C", 3, none⟩]
      = .ok [⟨"A", 1, some "0"⟩, ⟨"B", 2, some "2.0x"⟩, ⟨"C", 3, none⟩] := by
    simp only [computeSlowness, slownessStr_2_1]
    norm_num
  simp only [print_results, hcs]
  rfl

/-- Claim C4, amended: on an odd-length results list the slowness pass
leaves the final entry untouched (so its slowness stays at whatever it
held).  Rendering succeeds only when every measurement carries a
slowness key — which `run_benchmark`'s initialization to `"0"`
guarantees, making the three-entry run print `"0"` for the unpaired
entry — and raises a `KeyError` when one is absent, rather than
omitting the field. -/
theorem C4_theorem :
    (∀ (l l' : List Measurement), l.length % 2 = 1 → computeSlowness l = .ok l' →
        l'[l.length - 1]? = l[l.length - 1]?)
    ∧ (∀ (l l' : List Measurement), computeSlowness l = .ok l' →
        (∀ m ∈ l, m.slowness ≠ none) → ∃ rows, makeRows l' = .ok rows)
    ∧ print_results [⟨"A", 1, some "0"⟩, ⟨"B", 2, some "0"⟩, ⟨"C", 3, some "0"⟩]
      = .ok [⟨"A", 1, "0"⟩, ⟨"B", 2, "2.0x"⟩, ⟨"C", 3, "0"⟩] := by
  refine ⟨?_, ?_, ?_⟩
  · intro l l' hodd h
    have hk : 2 * ((l.length - 1) / 2) = l.length - 1 := by omega
    have he := computeSlowness_getElem_even h ((l.length - 1) / 2)
    rwa [hk] at he
  · intro l l' h hall
    exact makeRows_total l' (computeSlowness_keeps_keys h hall)
  · have hcs : computeSlowness [⟨"A", 1, some "0"⟩, ⟨"B", 2, some "0"⟩, ⟨"C", 3, some "0"⟩]
        = .ok [⟨"A", 1, some "0"⟩, ⟨"B", 2, some "2.0x"⟩, ⟨"C", 3, some "0"⟩] := by
      simp only [computeSlowness, slownessStr_2_1]
      norm_num
    simp only [print_results, hcs]
    rfl

/-- Witness for C4: both hypothesised parts applied to the concrete
three-entry list with all slowness keys initialized to `"0"`. -/
theorem C4_witness :
    (([⟨"A", 1, some "0"⟩, ⟨"B", 2, some "2.0x"⟩, ⟨"C", 3, some "0"⟩] : List Measurement)[
        ([⟨"A", (1:ℚ), some "0"⟩, ⟨"B", 2, some "0"⟩, ⟨"C", 3, some "0"⟩] : List Measurement).length - 1]?
      = ([⟨"A", (1:ℚ), some "0"⟩, ⟨"B", 2, some "0"⟩, ⟨"C", 3, some "0"⟩] : List Measurement)[
        ([⟨"A", (1:ℚ), some "0"⟩, ⟨"B", 2, some "0"⟩, ⟨"C", 3, some "0"⟩] : List Measurement).length - 1]?)
    ∧ (∃ rows, makeRows [⟨"A", 1, some "0"⟩, ⟨"B", 2, some "2.0x"⟩, ⟨"C", 3, some "0"⟩]
        = .ok rows) :=
  ⟨C4_theorem.1 [⟨"A", 1, some "0"⟩, ⟨"B", 2, some "0"⟩, ⟨"C", 3, some "0"⟩]
      [⟨"A", 1, some "0"⟩, ⟨"B", 2, some "2.0x"⟩, ⟨"C", 3, some "0"⟩] (by decide)
      (by simp only [computeSlowness, slownessStr_2_1]; norm_num),
    C4_theorem.2.1 [⟨"A", 1, some "0"⟩, ⟨"B", 2, some "0"⟩, ⟨"C", 3, some "0"⟩]
      [⟨"A", 1, some "0"⟩, ⟨"B", 2, some "2.0x"⟩, ⟨"C", 3, some "0"⟩]
      (by simp only [computeSlowness, slownessStr_2_1]; norm_num) (by decide)⟩

/-- Claim C5, counterexample: a failing invocation's error is captured
in the futures but silently dropped.  The futures hold the error and the
sibling's success, yet the benchmark function's returned value is
indistinguishable from the all-success run — nothing records the error. -/
theorem C5_counterexample :
    dispatchOutcomes [failOp, okOp] = [.error .operationFailed, .ok ()]
    ∧ runBatchAndDiscard [failOp, okOp] = runBatchAndDiscard [okOp, okOp] :=
  ⟨rfl, rfl⟩

/-- Claim C5, amended: a failing invocation does not halt its siblings
— replacing any one submitted operation leaves every other outcome
unchanged — and the dispatcher's futures list covers every submission
(the `with` block returns only after all complete); but the error is
silently dropped: the benchmark function discards the futures and
returns `None` regardless. -/
theorem C5_theorem :
    ∀ (ops : List (Unit → Except OpError Unit)) (j i : ℕ)
      (op' : Unit → Except OpError Unit), i ≠ j →
      (dispatchOutcomes ops).length = ops.length
      ∧ (dispatchOutcomes (ops.set j op'))[i]? = (dispatchOutcomes ops)[i]?
      ∧ runBatchAndDiscard ops = () := by
  intro ops j i op' hij
  refine ⟨by simp [dispatchOutcomes], ?_, rfl⟩
  simp only [dispatchOutcomes, List.map_set]
  exact List.getElem?_set_ne (Ne.symm hij)

/-- Witness for C5: injecting a failing operation at position 0 of a
two-element batch leaves the outcome at position 1 unchanged. -/
theorem C5_witness :
    (1 : ℕ) ≠ 0
    ∧ (dispatchOutcomes ([okOp, okOp].set 0 failOp))[1]?
      = (dispatchOutcomes [okOp, okOp])[1]? :=
  ⟨by decide, (C5_theorem [okOp, okOp] 0 1 failOp (by decide)).2.1⟩

/-- Claim C6, counterexample: when the schema reset fails on the third
catalog entry, `run_benchmark` raises the store error — it produces no
report at all, partial or otherwise, and no abort indicator. -/
theorem C6_counterexample :
    run_benchmark (fun f => f != BenchFn.run_psycopg_update) (fun _ => 1)
      = .error .storeUnavailable := by
  decide

/-- Claim C6, amended: a schema-reset failure on any catalog entry
short-circuits the remaining entries, but instead of producing a partial
report with an abort indicator, `run_benchmark` propagates the store
error uncaught — the same error results whatever durations the already
measured entries had, and `print_results` never runs. -/
theorem C6_theorem :
    ∀ (resetOk : BenchFn → Bool) (d : BenchFn → ℚ),
      (∃ e ∈ functions, resetOk e.func = false) →
      run_benchmark resetOk d = .error .storeUnavailable := by
  intro resetOk d hf
  simp only [run_benchmark, measureAll_error functions resetOk d hf]

/-- Witness for C6: the catalog entry for `run_psycopg_update` has a
failing reset, and the run aborts with the store error. -/
theorem C6_witness :
    (∃ e ∈ functions, (fun f => f != BenchFn.run_psycopg_update) e.func = false)
    ∧ run_benchmark (fun f => f != BenchFn.run_psycopg_update) (fun _ => 2)
      = .error .storeUnavailable :=
  ⟨by decide, C6_theorem (fun f => f != BenchFn.run_psycopg_update) (fun _ => 2) (by decide)⟩

/-- Claim C7: the slowness pass is idempotent — on a successful pass,
running it again on the output succeeds and returns the output
unchanged, slowness strings included. -/
theorem C7_theorem :
    ∀ (l l' : List Measurement), computeSlowness l = .ok l' →
      computeSlowness l' = .ok l' :=
  fun _ _ h => computeSlowness_idem h

/-- Witness for C7: the pass applied twice to a concrete two-entry
list. -/
theorem C7_witness :
    computeSlowness [⟨"a", 2, some "0"⟩, ⟨"b", 4, some "2.0x"⟩]
      = .ok [⟨"a", 2, some "0"⟩, ⟨"b", 4, some "2.0x"⟩] :=
  C7_theorem [⟨"a", 2, some "0"⟩, ⟨"b", 4, some "0"⟩]
    [⟨"a", 2, some "0"⟩, ⟨"b", 4, some "2.0x"⟩]
    (by simp only [computeSlowness, slownessStr_4_2]; norm_num)

/-- Claim C8: for every worker bound `C ≥ 1` and batch size `N`, the
pool never has more than `C` invocations executing at any reachable
instant, the `with` block's exit point (no pending and no running work)
implies all `N` invocations completed, and the fully-completed state is
reachable. -/
theorem C8_theorem :
    ∀ C N : ℕ, 1 ≤ C →
      (∀ s : PoolState, PoolReach C N s →
        s.running ≤ C ∧ (s.pending = 0 → s.running = 0 → s.done = N))
      ∧ PoolReach C N ⟨0, 0, N⟩ := by
  intro C N hC
  constructor
  · intro s hs
    obtain ⟨h1, h2⟩ := poolReach_invariant hs
    exact ⟨h1, fun hp hr => by omega⟩
  · have hd := poolReach_drain (C := C) (N := N) hC N le_rfl
    simpa using hd

/-- Witness for C8 at the source's parameters: a pool of 1000 workers
drains all 100000 submissions of one benchmark batch. -/
theorem C8_witness :
    (1 : ℕ) ≤ 1000 ∧ PoolReach 1000 100000 ⟨0, 0, 100000⟩ :=
  ⟨by norm_num, (C8_theorem 1000 100000 (by norm_num)).2⟩

/-- Claim C9: the slowness pass is total exactly under the precondition
that every even-indexed measurement with an odd-indexed successor has a
nonzero duration; with a zero duration at index 0 and an entry at index
1, `print_results` raises `ZeroDivisionError` instead of producing a
report. -/
theorem C9_theorem :
    (∀ l : List Measurement,
        (∀ k : ℕ, 2*k+1 < l.length → l[2*k]?.map Measurement.duration ≠ some 0) →
        ∃ l', computeSlowness l = .ok l')
    ∧ print_results [⟨"A", 0, some "0"⟩, ⟨"B", 1, some "0"⟩] = .error .zeroDivision := by
  constructor
  · exact computeSlowness_total
  · rfl

/-- Witness for C9: the nonzero-divisor precondition holds for durations
`[1, 2]` and the pass completes there. -/
theorem C9_witness :
    ∃ l', computeSlowness [⟨"A", 1, some "0"⟩, ⟨"B", 2, some "0"⟩] = .ok l' :=
  C9_theorem.1 [⟨"A", 1, some "0"⟩, ⟨"B", 2, some "0"⟩]
    (by
      intro k hk
      have hk0 : k = 0 := by
        simp only [List.length_cons, List.length_nil] at hk
        omega
      subst hk0
      decide)

/-- Claim C10: the static catalog has exactly 8 entries (an even count);
at every even index sits the Psycopg implementation of a logical
operation with the SQLAlchemy implementation of the same operation at
the following odd index; consequently every slowness ratio the reporter
computes divides a SQLAlchemy duration by the paired Psycopg duration. -/
theorem C10_theorem :
    functions.length = 8
    ∧ functions.length % 2 = 0
    ∧ (∀ k : ℕ, k < 4 →
        (functions[2*k]?).map (fun e => clientOf e.func) = some .psycopg
        ∧ (functions[2*k+1]?).map (fun o => clientOf o.func) = some .sqlalchemy
        ∧ (functions[2*k]?).map (fun e => opKindOf e.func)
          = (functions[2*k+1]?).map (fun o => opKindOf o.func))
    ∧ (∀ (d : BenchFn → ℚ) (l' : List Measurement) (k : ℕ) (e o : CatalogEntry),
        computeSlowness (run_benchmark_measurements d) = .ok l' →
        functions[2*k]? = some e → functions[2*k+1]? = some o →
        l'[2*k+1]? = some ⟨o.name, d o.func, some (slownessStr (d o.func) (d e.func))⟩) := by
  refine ⟨rfl, rfl, by decide, ?_⟩
  intro d l' k e o h he ho
  have ha : (run_benchmark_measurements d)[2*k]?
      = some (⟨e.name, d e.func, some "0"⟩ : Measurement) := by
    simp [run_benchmark_measurements, List.getElem?_map, he]
  have hb : (run_benchmark_measurements d)[2*k+1]?
      = some (⟨o.name, d o.func, some "0"⟩ : Measurement) := by
    simp [run_benchmark_measurements, List.getElem?_map, ho]
  have hodd := computeSlowness_getElem_odd h ha hb
  simpa using hodd

/-- Witness for C10: with every duration equal to 1, the pair at
indices (2, 3) — Psycopg update then SQLAlchemy update — produces at
index 3 the slowness `slownessStr 1 1`, i.e. SQLAlchemy over Psycopg. -/
theorem C10_witness :
    ([⟨"Psycopg Concurrent Select", 1, some "0"⟩,
      ⟨"SQLAlchemy Concurrent Select", 1, some "1.0x"⟩,
      ⟨"Psycopg Concurrent update", 1, some "0"⟩,
      ⟨"SQLAlchemy Concurrent update", 1, some "1.0x"⟩,
      ⟨"Psycopg Batch Add", 1, some "0"⟩,
      ⟨"SQLAlchemy Batch Add", 1, some "1.0x"⟩,
      ⟨"Psycopg Concurrent Add", 1, some "0"⟩,
      ⟨"SQLAlchemy Concurrent Add", 1, some "1.0x"⟩] : List Measurement)[2*1+1]?
      = some ⟨"SQLAlchemy Concurrent update", 1, some (slownessStr 1 1)⟩ :=
  C10_theorem.2.2.2 (fun _ => 1)
    [⟨"Psycopg Concurrent Select", 1, some "0"⟩,
     ⟨"SQLAlchemy Concurrent Select", 1, some "1.0x"⟩,
     ⟨"Psycopg Concurrent update", 1, some "0"⟩,
     ⟨"SQLAlchemy Concurrent update", 1, some "1.0x"⟩,
     ⟨"Psycopg Batch Add", 1, some "0"⟩,
     ⟨"SQLAlchemy Batch Add", 1, some "1.0x"⟩,
     ⟨"Psycopg Concurrent Add", 1, some "0"⟩,
     ⟨"SQLAlchemy Concurrent Add", 1, some "1.0x"⟩]
    1 ⟨"Psycopg Concurrent update", .run_psycopg_update⟩
    ⟨"SQLAlchemy Concurrent update", .run_sqlalchemy_update⟩
    (by
      simp only [run_benchmark_measurements, functions, List.map_cons, List.map_nil,
        computeSlowness, slownessStr_1_1]
      norm_num)
    (by decide) (by decide)

end Benchmark
